import Mathlib

/-!
Verification of the NeoMutt help-backend (src/help/help.c) against its
natural-language specification.

Strings of the C code are modelled as List Char (a C string without its
terminating NUL); a text file opened for reading is modelled as
Option (List (List Char)): none when the file cannot be opened, otherwise
the list of its lines as delivered by mutt_file_read_line (newline
stripped).  All definitions are translated from the source; the few spots
where repository code outside src/ is needed carry a doc comment starting
with "Modelled from the spec:".
-/

/-- Whitespace set of C isspace(3), used by mutt_str_remove_trailing_ws and
mutt_str_skip_whitespace in the header parser. -/
def isSpaceC (c : Char) : Bool :=
  c == ' ' || c == '\t' || c == '\n' || c == '\x0B' || c == '\x0C' || c == '\r'

/-- The triple-dash front-matter delimiter, the string "---" of
help_file_header (help.c line 404). -/
def markChars : List Char := ['-', '-', '-']

/-- Character class of strpbrk(p, ": \t") in the header-scan loop condition
(help.c line 420). -/
def fhdrSepChar (c : Char) : Bool :=
  c == ':' || c == ' ' || c == '\t'

/-- Model of mutt_str_remove_trailing_ws: cut the maximal run of trailing
isspace characters. -/
def trimTrailWs (l : List Char) : List Char :=
  (l.reverse.dropWhile isSpaceC).reverse

/-- Scan loop of help_file_header (help.c lines 419-435), one step per line
read after the opening delimiter.  Faithful branch structure: a line equal
to the delimiter ends the scan successfully; a line in which strpbrk finds
none of ':', ' ', '\t' ends the loop with the end mark still missing (the
strpbrk test sits in the while condition); otherwise, when the remaining
limit is 0 or the line fails the key/value shape test
(p == q or *q != ':'), the line is skipped; else a key/value entry is
collected, with the count raised and the limit lowered.  Returns the C
function's return value paired with the final value of the caller's *fhdr
(none models the NULL it holds when the function does not set it, and also
the NULL list produced when zero entries were collected). -/
def fhdrLoop (lines : List (List Char)) (limit count : Int)
    (acc : List (List Char × List Char)) : Int × Option (List (List Char × List Char)) :=
  match lines with
  | [] => (-4, none)
  | l :: rest =>
    if l = markChars then
      (count, if acc = [] then none else some acc)
    else
      match l.findIdx? fhdrSepChar with
      | none => (-4, none)
      | some q =>
        if limit = 0 then
          fhdrLoop rest limit count acc
        else if q = 0 ∨ l.get? q ≠ some ':' then
          fhdrLoop rest limit count acc
        else
          fhdrLoop rest (limit - 1) (count + 1)
            (acc ++ [(l.take q, ((trimTrailWs l).drop (q + 1)).dropWhile isSpaceC)])

/-- Index of the last occurrence of a character, model of strrchr. -/
def lastIdxOf (l : List Char) (c : Char) : Option Nat :=
  match l.reverse.findIdx? (fun d => d == c) with
  | none => none
  | some k => some (l.length - 1 - k)

/-- Extension test at the top of help_file_header (help.c lines 393-395):
basename taken after the last '/', its last '.' must exist, must not be the
first character of the basename, and the three characters from it must
case-insensitively equal ".md" (mutt_istrn_equal with length 3). -/
def mdExtOk (fname : List Char) : Bool :=
  let bfn := (fname.reverse.takeWhile (fun c => c != '/')).reverse
  match lastIdxOf bfn '.' with
  | none => false
  | some k => decide (k ≠ 0) && ((bfn.drop k).take 3).map Char.toLower == ['.', 'm', 'd']

/-- Model of help_file_header (help.c lines 391-451).  The file is given as
its name (for the extension test) and its readable content (none when
mutt_file_fopen fails).  Returns the C return value together with the final
value of the caller's *fhdr list. -/
def help_file_header (fname : List Char) (content : Option (List (List Char)))
    (max : Int) : Int × Option (List (List Char × List Char)) :=
  if mdExtOk fname = false then (-1, none)
  else
    match content with
    | none => (-2, none)
    | some [] => (-3, none)
    | some (first :: rest) =>
      if first = markChars then
        fhdrLoop rest (if max < 0 then -1 else max) 0 []
      else (-3, none)

/-- Shape test of the skip branch in the scan loop (help.c lines 424-425):
strpbrk found a separator, but the line starts with it or the first
separator is whitespace rather than ':'. -/
def malformedLine (l : List Char) : Bool :=
  match l.findIdx? fhdrSepChar with
  | none => false
  | some q => q == 0 || !(l.get? q == some ':')

theorem fhdrLoop_no_mark (lines : List (List Char)) (h : ∀ l ∈ lines, l ≠ markChars) :
    ∀ limit count acc, fhdrLoop lines limit count acc = (-4, none) := by
  induction lines with
  | nil => intro limit count acc; rfl
  | cons l rest ih =>
    intro limit count acc
    have hl : l ≠ markChars := h l (by simp)
    have hrest : ∀ x ∈ rest, x ≠ markChars := fun x hx => h x (by simp [hx])
    rw [fhdrLoop, if_neg hl]
    cases hf : l.findIdx? fhdrSepChar with
    | none => rfl
    | some q =>
      dsimp only
      by_cases h0 : limit = 0
      · rw [if_pos h0]; exact ih hrest _ _ _
      · rw [if_neg h0]
        by_cases hq : q = 0 ∨ l.get? q ≠ some ':'
        · rw [if_pos hq]; exact ih hrest _ _ _
        · rw [if_neg hq]; exact ih hrest _ _ _

/-- C3: when the scan after the opening delimiter never meets a second
"---" line, help_file_header returns -4 (MissingEndMarker) and the caller's
header-list output stays unset, whatever well-formed key/value lines were
read and whatever the line limit was. -/
theorem help_c3_missing_endmark (fname : List Char) (rest : List (List Char))
    (max : Int) (hext : mdExtOk fname = true)
    (hnomark : ∀ l ∈ rest, l ≠ markChars) :
    help_file_header fname (some (markChars :: rest)) max = (-4, none) := by
  rw [help_file_header, if_neg (by simp [hext]), if_pos rfl]
  exact fhdrLoop_no_mark rest hnomark _ _ _

/-- C3 witness: a concrete .md file whose header block has two well-formed
key/value lines but no closing delimiter is rejected with -4 and no
entries. -/
theorem help_c3_witness :
    help_file_header ['a', '.', 'm', 'd']
      (some [markChars, ['k', ':', ' ', 'v'], ['t', ':', ' ', 'u']]) (-1) = (-4, none) :=
  help_c3_missing_endmark ['a', '.', 'm', 'd'] [['k', ':', ' ', 'v'], ['t', ':', ' ', 'u']]
    (-1) (by decide) (by decide)

/-- C4 (amended): a non-delimiter line in which strpbrk finds one of
':', ' ', '\t' but which fails the key/value shape test (it starts with a
separator, or the first separator is whitespace rather than ':') is
skipped: the scan state (remaining limit, count, collected entries) is
unchanged and parsing continues with the next line.  A line in which
strpbrk finds none of those characters, however, ends the loop at once and
the parse fails with -4 (MissingEndMarker). -/
theorem help_c4_skip (l : List Char) (rest : List (List Char)) (limit count : Int)
    (acc : List (List Char × List Char)) (hm : l ≠ markChars) :
    (malformedLine l = true →
      fhdrLoop (l :: rest) limit count acc = fhdrLoop rest limit count acc)
    ∧ (l.findIdx? fhdrSepChar = none →
      fhdrLoop (l :: rest) limit count acc = (-4, none)) := by
  constructor
  · intro h
    rw [malformedLine] at h
    rw [fhdrLoop, if_neg hm]
    cases hf : l.findIdx? fhdrSepChar with
    | none => rw [hf] at h; simp at h
    | some q =>
      rw [hf] at h
      dsimp only at h ⊢
      by_cases h0 : limit = 0
      · rw [if_pos h0]
      · have hq : q = 0 ∨ l.get? q ≠ some ':' := by
          simpa using h
        rw [if_neg h0, if_pos hq]
  · intro h
    rw [fhdrLoop, if_neg hm, h]

/-- C4 witness: a line starting with ':' is skipped without consuming the
limit or adding an entry. -/
theorem help_c4_witness :
    fhdrLoop [[':', 'x'], markChars] (-1) 0 [] = fhdrLoop [markChars] (-1) 0 [] :=
  (help_c4_skip [':', 'x'] [markChars] (-1) 0 [] (by decide)).1 (by decide)

/-- C4 counterexample: the line "foo" contains none of ':', ' ', '\t', so it
does not merely get skipped: it makes help_file_header fail with -4 even
though a closing delimiter follows, while the same file without that line
parses successfully.  This contradicts the claim that a non key/value line
never causes the parse to fail. -/
theorem help_c4_counterexample :
    help_file_header ['a', '.', 'm', 'd']
      (some [markChars, ['f', 'o', 'o'], markChars]) (-1) = (-4, none)
    ∧ help_file_header ['a', '.', 'm', 'd'] (some [markChars, markChars]) (-1) = (0, none) := by
  decide

/-- C5 (amended): once the remaining line limit is 0, every further
non-delimiter line that contains one of ':', ' ', '\t' is scanned without
collecting anything, and reaching the closing delimiter still ends the
parse successfully with the entries collected before the cap; exhausting
the cap is not by itself reported as MissingEndMarker. -/
theorem help_c5_cap_scan (r1 r2 : List (List Char)) (count : Int)
    (acc : List (List Char × List Char))
    (h : ∀ l ∈ r1, l ≠ markChars ∧ (l.findIdx? fhdrSepChar).isSome = true) :
    fhdrLoop (r1 ++ markChars :: r2) 0 count acc
      = (count, if acc = [] then none else some acc) := by
  induction r1 with
  | nil => rw [List.nil_append, fhdrLoop, if_pos rfl]
  | cons l tl ih =>
    obtain ⟨hm, hs⟩ := h l (by simp)
    have htl : ∀ x ∈ tl, x ≠ markChars ∧ (x.findIdx? fhdrSepChar).isSome = true :=
      fun x hx => h x (by simp [hx])
    rw [List.cons_append, fhdrLoop, if_neg hm]
    cases hf : l.findIdx? fhdrSepChar with
    | none => rw [hf] at hs; simp at hs
    | some q =>
      dsimp only
      rw [if_pos rfl]
      exact ih htl

/-- C5 witness: with the limit already exhausted, a candidate line is
scanned past and the delimiter then ends the parse with the previously
collected entry. -/
theorem help_c5_witness :
    fhdrLoop ([['x', ':', 'y']] ++ markChars :: []) 0 2 [(['a'], ['b'])]
      = (2, some [(['a'], ['b'])]) :=
  (help_c5_cap_scan [['x', ':', 'y']] [] 2 [(['a'], ['b'])] (by decide)).trans (by decide)

/-- C5 counterexample: with max_lines = 1 the cap is reached after the
first key/value line, before the closing delimiter is seen, yet the parse
succeeds with return value 1 rather than failing with -4
(MissingEndMarker), refuting the claim. -/
theorem help_c5_counterexample :
    help_file_header ['a', '.', 'm', 'd']
      (some [markChars, ['a', ':', ' ', 'b'], ['c', ':', ' ', 'd'], markChars]) 1
      = (1, some [(['a'], ['b'])])
    ∧ (help_file_header ['a', '.', 'm', 'd']
      (some [markChars, ['a', ':', ' ', 'b'], ['c', ':', ' ', 'd'], markChars]) 1).fst
      ≠ -4 := by
  decide

/-- Modelled from the spec: the HelpDocFlags constants live in help.h, which
is not under src/.  The spec describes a Document role as bit flags
combining an "is index" boolean with one primary structural level
(Root/Chapter/Section); HELP_DOC_UNKNOWN is the absence of any flag
(help.c lines 349, 368 assign it and plain 0 interchangeably). -/
def HELP_DOC_UNKNOWN : Nat := 0

/-- Modelled from the spec: the "is index" flag bit of HelpDocFlags. -/
def HELP_DOC_INDEX : Nat := 1

/-- Modelled from the spec: the root-level flag bit of HelpDocFlags. -/
def HELP_DOC_ROOTDOC : Nat := 2

/-- Modelled from the spec: the chapter-level flag bit of HelpDocFlags. -/
def HELP_DOC_CHAPTER : Nat := 4

/-- Modelled from the spec: the section-level flag bit of HelpDocFlags. -/
def HELP_DOC_SECTION : Nat := 8

/-- Model of strchr(p + 1, c) as an index into p: position of the first
occurrence of c at index 1 or later, none when there is none (help.c line
372). -/
def firstIdxFrom1 (l : List Char) (c : Char) : Option Nat :=
  match (l.drop 1).findIdx? (fun d => d == c) with
  | none => none
  | some k => some (k + 1)

/-- help_file_type (help.c lines 347-378) with the configured root
C_HelpDocDir as an explicit first argument.  The minimum-length and prefix
tests mirror lines 353-363: note that line 360 compares only the first
strlen(docdir) characters of the path, it never requires a '/' separator
after the root.  The index test compares the suffix of the remainder from
its last '/' with "/index.md" case-insensitively; when the remainder
contains no '/' at all, strrchr yields NULL and the NULL == NULL pointer
comparison of line 372 makes the document a Chapter. -/
def help_file_type (docdir file : List Char) : Nat :=
  if file.length < 5 ∨ docdir.length = 0 ∨ file.length ≤ docdir.length then
    HELP_DOC_UNKNOWN
  else if ¬((file.drop (file.length - 3)).map Char.toLower = ['.', 'm', 'd'])
      ∨ ¬(file.take docdir.length = docdir) then
    HELP_DOC_UNKNOWN
  else
    let p := file.drop docdir.length
    let idx : Nat :=
      match lastIdxOf p '/' with
      | none => 0
      | some k =>
        if (p.drop k).map Char.toLower = ['/', 'i', 'n', 'd', 'e', 'x', '.', 'm', 'd'] then
          HELP_DOC_INDEX
        else 0
    let lvl : Nat :=
      match lastIdxOf p '/' with
      | none => HELP_DOC_CHAPTER
      | some k =>
        if k = 0 then HELP_DOC_ROOTDOC
        else
          match firstIdxFrom1 p '/' with
          | none => HELP_DOC_SECTION
          | some f => if f = k then HELP_DOC_CHAPTER else HELP_DOC_SECTION
    idx ||| lvl

/-- C1: evaluation at the failing input.  The path "/helpers/x.md" does not
start with the configured root "/help" followed by '/', so the claim (and
the code's own comment "path below C_HelpDocDir ... mandatory", and
help_doc_from's root-relative path arithmetic at help.c line 825) requires
Unknown; help_file_type nevertheless classifies it as a Chapter document,
because line 360 checks only the bare prefix and never the separator. -/
theorem help_c1_missing_separator :
    help_file_type "/help".toList "/helpers/x.md".toList = HELP_DOC_CHAPTER
    ∧ "/helpers/x.md".toList.take 6 ≠ "/help/".toList := by
  decide

/-- A help document as far as the sorting and linking logic inspects it: the
HelpDocMeta type flags, the Envelope message id, the Envelope references
list (the parent links) and the Email index position. -/
structure HelpDoc where
  typ : Nat
  msgId : String
  refs : List String
  index : Nat
deriving DecidableEq, Repr

/-- help_doc_type_cmp (help.c lines 208-216): comparator returning
(t1 < t2) - (t1 > t2), which orders documents by descending type value. -/
def help_doc_type_cmp (a b : HelpDoc) : Int :=
  (if a.typ < b.typ then (1 : Int) else 0) - (if b.typ < a.typ then (1 : Int) else 0)

/-- Model of help_list_sort(list, help_doc_type_cmp) (help.c lines 197-203,
called at line 919).  The sort is qsort(3), whose contract guarantees only
that the output is a permutation of the input ordered by the comparator;
the relative order of elements that compare equal is unspecified.
helpSortedPerm l l' holds exactly when l' is a possible output for input
l. -/
def helpSortedPerm (l l' : List HelpDoc) : Prop :=
  List.Perm l l' ∧ List.Pairwise (fun a b => help_doc_type_cmp a b ≤ 0) l'

/-- Whether a document carries the "is index" flag. -/
def isIndexDoc (d : HelpDoc) : Bool :=
  d.typ &&& HELP_DOC_INDEX != 0

/-- All ordered pairs (earlier, later) of a list, used to state the
discovery-order half of the sort claim. -/
def ordPairs : List HelpDoc → List (HelpDoc × HelpDoc)
  | [] => []
  | x :: xs => xs.map (fun y => (x, y)) ++ ordPairs xs

/-- Position of the first occurrence of a document in a list. -/
def posOf (d : HelpDoc) (l : List HelpDoc) : Option Nat :=
  l.findIdx? (fun e => decide (e = d))

/-- Whether a occurs strictly before b in l'. -/
def beforeInB (l' : List HelpDoc) (a b : HelpDoc) : Bool :=
  match posOf a l', posOf b l' with
  | some i, some j => decide (i < j)
  | _, _ => false

/-- Whether a sort output preserves the input's relative (discovery) order
on every pair of documents whose types compare equal: the stability
property the claim asserts. -/
def tiesPreservedB (l l' : List HelpDoc) : Bool :=
  (ordPairs l).all fun ab => !(ab.1.typ == ab.2.typ) || beforeInB l' ab.1 ab.2

/-- C2 counterexample: for the batch d1, d2, dI (two Chapter documents in
discovery order d1 before d2, and one Chapter index document), the output
dI, d2, d1 is a comparator-sorted permutation -- a result qsort(3) is
permitted to return -- yet d2 and d1, whose types compare equal, have lost
their discovery order.  The batch sort is therefore not guaranteed
stable. -/
theorem help_c2_counterexample :
    helpSortedPerm
      [⟨4, "m1", [], 0⟩, ⟨4, "m2", [], 0⟩, ⟨5, "m3", [], 0⟩]
      [⟨5, "m3", [], 0⟩, ⟨4, "m2", [], 0⟩, ⟨4, "m1", [], 0⟩]
    ∧ tiesPreservedB
      [⟨4, "m1", [], 0⟩, ⟨4, "m2", [], 0⟩, ⟨5, "m3", [], 0⟩]
      [⟨5, "m3", [], 0⟩, ⟨4, "m2", [], 0⟩, ⟨4, "m1", [], 0⟩] = false := by
  constructor
  · exact ⟨by decide, by decide⟩
  · decide

theorem help_doc_type_cmp_le (a b : HelpDoc) (h : help_doc_type_cmp a b ≤ 0) :
    b.typ ≤ a.typ := by
  rw [help_doc_type_cmp] at h
  split_ifs at h <;> omega

theorem typ_index_iff (lvl : Nat)
    (hlvl : lvl = HELP_DOC_ROOTDOC ∨ lvl = HELP_DOC_CHAPTER ∨ lvl = HELP_DOC_SECTION)
    (d : HelpDoc) (h : d.typ = lvl ∨ d.typ = lvl ||| HELP_DOC_INDEX) :
    (isIndexDoc d = true ↔ d.typ = lvl + 1) ∧ (d.typ = lvl ∨ d.typ = lvl + 1) := by
  rcases hlvl with h0 | h0 | h0 <;> subst h0 <;>
    rcases h with h | h <;>
      rw [isIndexDoc, h] <;>
        exact ⟨by decide, by decide⟩

/-- C2 (amended): every output the batch sort is allowed to produce (a
help_doc_type_cmp-sorted permutation of the batch, the batch being
level-uniform as one non-recursive directory pass yields it) places the
index-flagged documents before all others; but the relative order of
documents whose types compare equal is not guaranteed to be the discovery
order, because qsort(3) is not stable. -/
theorem help_c2_index_first (lvl : Nat) (b l' : List HelpDoc)
    (hlvl : lvl = HELP_DOC_ROOTDOC ∨ lvl = HELP_DOC_CHAPTER ∨ lvl = HELP_DOC_SECTION)
    (hb : ∀ d ∈ b, d.typ = lvl ∨ d.typ = lvl ||| HELP_DOC_INDEX)
    (hs : helpSortedPerm b l') :
    List.Pairwise (fun a c => isIndexDoc c = true → isIndexDoc a = true) l' := by
  obtain ⟨hperm, hsort⟩ := hs
  refine hsort.imp_of_mem ?_
  intro a c ha hc hcmp hidxc
  have hta := typ_index_iff lvl hlvl a (hb a (hperm.mem_iff.mpr ha))
  have htc := typ_index_iff lvl hlvl c (hb c (hperm.mem_iff.mpr hc))
  have hle : c.typ ≤ a.typ := help_doc_type_cmp_le a c hcmp
  have hc1 : c.typ = lvl + 1 := htc.1.mp hidxc
  have ha1 : a.typ = lvl + 1 := by
    rcases hta.2 with h | h
    · omega
    · exact h
  exact hta.1.mpr ha1

/-- C2 witness: a concrete level-uniform batch and one of its sorted
permutations, with the index document first. -/
theorem help_c2_witness :
    List.Pairwise (fun a c => isIndexDoc c = true → isIndexDoc a = true)
      [⟨5, "y", [], 0⟩, ⟨4, "x", [], 0⟩] :=
  help_c2_index_first 4 [⟨4, "x", [], 0⟩, ⟨5, "y", [], 0⟩] [⟨5, "y", [], 0⟩, ⟨4, "x", [], 0⟩]
    (by decide) (by decide) ⟨by decide, by decide⟩

/-- Global linker state of help.c: the DocList and the UpLink cursor
(help.c lines 61-62). -/
structure HelpState where
  docList : List HelpDoc
  upLink : Nat
deriving DecidableEq, Repr

/-- help_doc_uplink (help.c lines 890-900): append target's message id to
source's references, unless there is no target or its id is empty. -/
def help_doc_uplink (target : Option HelpDoc) (source : HelpDoc) : HelpDoc :=
  match target with
  | none => source
  | some tgt =>
    if tgt.msgId = "" then source
    else { source with refs := source.refs ++ [tgt.msgId] }

/-- The append loop over the remaining batch documents (help.c lines
941-948): each is uplinked to the batch's top document, given the next
index position, and appended to the DocList. -/
def linkRest (dl : List HelpDoc) (top : HelpDoc) : List HelpDoc → List HelpDoc
  | [] => dl
  | d :: ds =>
    linkRest (dl ++ [{ help_doc_uplink (some top) d with index := dl.length }]) top ds

/-- help_read_dir after its batch sort (help.c lines 921-948), applied to
the already-sorted non-empty batch top :: rest.  HELP_LINK_CHAPTERS is 0 in
this source, so a Chapter top is not linked to the root document; the
UpLink cursor is set to the position the top is about to occupy.  A Section
top is uplinked to the document the UpLink cursor addresses, if that index
is occupied (help_list_get, help.c lines 161-167, yields NULL otherwise).
Any other top resets the cursor to 0.  The top and then the remaining
documents are appended with consecutive index positions. -/
def help_read_dir_linked (s : HelpState) (top : HelpDoc) (rest : List HelpDoc) : HelpState :=
  let tu : HelpDoc × Nat :=
    if top.typ &&& HELP_DOC_CHAPTER ≠ 0 then
      (top, s.docList.length)
    else if top.typ &&& HELP_DOC_SECTION ≠ 0 then
      (help_doc_uplink (s.docList.get? s.upLink) top, s.upLink)
    else
      (top, 0)
  { docList :=
      linkRest (s.docList ++ [{ tu.1 with index := s.docList.length }])
        { tu.1 with index := s.docList.length } rest,
    upLink := tu.2 }

theorem linkRest_suffix (ds : List HelpDoc) (dl : List HelpDoc) (top : HelpDoc) :
    ∃ suf, linkRest dl top ds = dl ++ suf := by
  induction ds generalizing dl with
  | nil => exact ⟨[], by simp [linkRest]⟩
  | cons d tl ih =>
    obtain ⟨suf, hsuf⟩ :=
      ih (dl ++ [{ help_doc_uplink (some top) d with index := dl.length }])
    exact ⟨{ help_doc_uplink (some top) d with index := dl.length } :: suf, by
      rw [linkRest, hsuf, List.append_assoc, List.singleton_append]⟩

/-- C6 (amended): when a Section-topped batch is processed while the index
is still empty (so the UpLink cursor's initial value 0 addresses no
document), the section document is appended unlinked: no parent reference
is added to it.  When the index is non-empty this is not so -- the cursor
value 0 then addresses the document at index position 0 -- see the
counterexample. -/
theorem help_c6_orphan (s : HelpState) (top : HelpDoc) (rest : List HelpDoc)
    (hempty : s.docList = [])
    (hch : top.typ &&& HELP_DOC_CHAPTER = 0)
    (hsec : top.typ &&& HELP_DOC_SECTION ≠ 0) :
    ((help_read_dir_linked s top rest).docList.get? 0).map HelpDoc.refs = some top.refs := by
  have htop1 : (if top.typ &&& HELP_DOC_CHAPTER ≠ 0 then (top, s.docList.length)
      else if top.typ &&& HELP_DOC_SECTION ≠ 0 then
        (help_doc_uplink (s.docList.get? s.upLink) top, s.upLink)
      else (top, 0)) = (top, s.upLink) := by
    rw [if_neg (fun hx => hx hch), if_pos hsec, hempty]
    rfl
  simp only [help_read_dir_linked]
  rw [htop1]
  dsimp only
  rw [hempty]
  obtain ⟨suf, hsuf⟩ :=
    linkRest_suffix rest (([] : List HelpDoc) ++ [{ top with index := ([] : List HelpDoc).length }])
      { top with index := ([] : List HelpDoc).length }
  rw [hsuf]
  rfl

/-- C6 witness: a lone Section document arriving at an empty index stays
without references. -/
theorem help_c6_witness :
    ((help_read_dir_linked ⟨[], 0⟩ ⟨8, "s1", [], 0⟩ []).docList.get? 0).map HelpDoc.refs
      = some ([] : List String) :=
  help_c6_orphan ⟨[], 0⟩ ⟨8, "s1", [], 0⟩ [] rfl (by decide) (by decide)

/-- C6 counterexample: a Section-topped batch processed before any Chapter
has been established (the UpLink cursor still holds its initial value 0)
but after a root-level document entered the index: the section does not
stay unlinked -- it receives the root document's message id "m0" as a
parent reference, because the cursor's initial value 0 is
indistinguishable from "index position 0". -/
theorem help_c6_counterexample :
    (help_read_dir_linked ⟨[⟨2, "m0", [], 0⟩], 0⟩ ⟨8, "s1", [], 0⟩ []).docList
      = [⟨2, "m0", [], 0⟩, ⟨8, "s1", ["m0"], 1⟩] := by
  decide

/-- C7 (amended): a batch whose top document is neither Chapter nor Section
does not leave the UpLink cursor unchanged -- it resets it to 0 (help.c
line 935); a Section-topped batch leaves it unchanged; a Chapter-topped
batch sets it to the index size before the batch is appended. -/
theorem help_c7_anchor (s : HelpState) (top : HelpDoc) (rest : List HelpDoc) :
    ((top.typ &&& HELP_DOC_CHAPTER = 0 ∧ top.typ &&& HELP_DOC_SECTION = 0) →
      (help_read_dir_linked s top rest).upLink = 0)
    ∧ ((top.typ &&& HELP_DOC_CHAPTER = 0 ∧ top.typ &&& HELP_DOC_SECTION ≠ 0) →
      (help_read_dir_linked s top rest).upLink = s.upLink)
    ∧ (top.typ &&& HELP_DOC_CHAPTER ≠ 0 →
      (help_read_dir_linked s top rest).upLink = s.docList.length) := by
  refine ⟨fun h => ?_, fun h => ?_, fun h => ?_⟩
  · rw [help_read_dir_linked]
    dsimp only
    rw [if_neg (by rw [h.1]; exact fun hx => hx rfl), if_neg (by rw [h.2]; exact fun hx => hx rfl)]
  · rw [help_read_dir_linked]
    dsimp only
    rw [if_neg (by rw [h.1]; exact fun hx => hx rfl), if_pos h.2]
  · rw [help_read_dir_linked]
    dsimp only
    rw [if_pos h]

/-- C7 witness: a Root-level-topped batch processed with the cursor already
0 leaves it 0, and a Section-topped batch keeps a nonzero cursor. -/
theorem help_c7_witness :
    (help_read_dir_linked ⟨[], 0⟩ ⟨2, "r1", [], 0⟩ []).upLink = 0 :=
  (help_c7_anchor ⟨[], 0⟩ ⟨2, "r1", [], 0⟩ []).1 ⟨by decide, by decide⟩

/-- C7 counterexample: a Root-level-topped batch (type HELP_DOC_ROOTDOC)
processed while the cursor points at the chapter at index position 1 does
change the cursor: it resets it to 0. -/
theorem help_c7_counterexample :
    (help_read_dir_linked ⟨[⟨4, "c0", [], 0⟩, ⟨4, "c1", [], 1⟩], 1⟩ ⟨2, "r0", [], 0⟩ []).upLink
      ≠ (⟨[⟨4, "c0", [], 0⟩, ⟨4, "c1", [], 1⟩], 1⟩ : HelpState).upLink := by
  decide

/-- Whether some document of l carries the message id r. -/
def hasId (l : List HelpDoc) (r : String) : Bool :=
  l.any (fun d => d.msgId == r)

/-- The parent-before-child invariant of claim C8, scanned left to right in
index order: acc holds the documents at strictly earlier positions, and
every reference of the next document must be the message id of one of
them. -/
def refsOkFrom (acc : List HelpDoc) : List HelpDoc → Bool
  | [] => true
  | d :: ds => d.refs.all (fun r => hasId acc r) && refsOkFrom (acc ++ [d]) ds

theorem hasId_append_left (l l2 : List HelpDoc) (r : String)
    (h : hasId l r = true) : hasId (l ++ l2) r = true := by
  rw [hasId, List.any_append]
  rw [hasId] at h
  rw [h]
  rfl

theorem refsOkFrom_append (dl : List HelpDoc) (d : HelpDoc) :
    ∀ acc, refsOkFrom acc (dl ++ [d])
      = (refsOkFrom acc dl && d.refs.all (fun r => hasId (acc ++ dl) r)) := by
  induction dl with
  | nil => intro acc; simp [refsOkFrom]
  | cons x xs ih =>
    intro acc
    rw [List.cons_append, refsOkFrom, refsOkFrom, ih (acc ++ [x]), Bool.and_assoc,
      List.append_assoc, List.singleton_append]

theorem refsOk_linkRest (ds : List HelpDoc) :
    ∀ dl : List HelpDoc, ∀ top : HelpDoc,
    refsOkFrom [] dl = true →
    (top.msgId = "" ∨ hasId dl top.msgId = true) →
    (∀ d ∈ ds, d.refs = []) →
    refsOkFrom [] (linkRest dl top ds) = true := by
  induction ds with
  | nil => intro dl top hok _ _; simpa [linkRest] using hok
  | cons d tl ih =>
    intro dl top hok htop hrefs
    rw [linkRest]
    refine ih _ top ?_ ?_ (fun x hx => hrefs x (by simp [hx]))
    · rw [refsOkFrom_append]
      have hd : d.refs = [] := hrefs d (by simp)
      have hall : ({ help_doc_uplink (some top) d with index := dl.length } : HelpDoc).refs.all
          (fun r => hasId (([] : List HelpDoc) ++ dl) r) = true := by
        by_cases hm : top.msgId = ""
        · simp [help_doc_uplink, hm, hd]
        · rcases htop with h | h
          · exact absurd h hm
          · simp [help_doc_uplink, hm, hd, h]
      rw [hok, hall]
      rfl
    · rcases htop with h | h
      · exact Or.inl h
      · exact Or.inr (hasId_append_left dl _ top.msgId h)

theorem hasId_append_self (dl : List HelpDoc) (t : HelpDoc) :
    hasId (dl ++ [t]) t.msgId = true := by
  simp [hasId, List.any_append]

theorem refsOk_append_one (dl : List HelpDoc) (t : HelpDoc)
    (hok : refsOkFrom [] dl = true)
    (hall : t.refs.all (fun r => hasId dl r) = true) :
    refsOkFrom [] (dl ++ [t]) = true := by
  rw [refsOkFrom_append, hok]
  simpa using hall

/-- C8: the parent-before-child invariant is preserved by every batch
linking step.  If every reference already recorded in the index points to a
document at a strictly earlier index position, and the batch documents come
fresh from help_doc_from with empty reference lists, then after
help_read_dir appends and links the batch, every reference in the index
still points to a document at a strictly earlier position: uplink targets
are read from the existing index before the batch is appended, and the
remaining batch documents refer to the batch top, which is appended before
them. -/
theorem help_c8_parent_earlier (s : HelpState) (top : HelpDoc) (rest : List HelpDoc)
    (hok : refsOkFrom [] s.docList = true)
    (htop : top.refs = [])
    (hrest : ∀ d ∈ rest, d.refs = []) :
    refsOkFrom [] (help_read_dir_linked s top rest).docList = true := by
  have hlink : ∀ t1 : HelpDoc,
      t1.refs.all (fun r => hasId s.docList r) = true →
      refsOkFrom [] (linkRest (s.docList ++ [{ t1 with index := s.docList.length }])
        { t1 with index := s.docList.length } rest) = true := by
    intro t1 hall
    apply refsOk_linkRest
    · exact refsOk_append_one _ _ hok hall
    · exact Or.inr (hasId_append_self s.docList { t1 with index := s.docList.length })
    · exact hrest
  simp only [help_read_dir_linked]
  by_cases hch : top.typ &&& HELP_DOC_CHAPTER ≠ 0
  · rw [if_pos hch]
    exact hlink top (by simp [htop])
  · rw [if_neg hch]
    by_cases hsec : top.typ &&& HELP_DOC_SECTION ≠ 0
    · rw [if_pos hsec]
      cases hg : s.docList.get? s.upLink with
      | none => exact hlink _ (by simp [help_doc_uplink, htop])
      | some tgt =>
        have htgt : tgt ∈ s.docList := List.get?_mem hg
        refine hlink _ ?_
        by_cases hm : tgt.msgId = ""
        · simp [help_doc_uplink, hm, htop]
        · simp [help_doc_uplink, hm, htop, hasId]
          exact ⟨tgt, htgt, rfl⟩
    · rw [if_neg hsec]
      exact hlink top (by simp [htop])

/-- C8 witness: linking a fresh two-document chapter batch into an empty
index yields an index satisfying the parent-before-child check. -/
theorem help_c8_witness :
    refsOkFrom []
      (help_read_dir_linked ⟨[], 0⟩ ⟨4, "c1", [], 0⟩ [⟨4, "d1", [], 0⟩]).docList = true :=
  help_c8_parent_earlier ⟨[], 0⟩ ⟨4, "c1", [], 0⟩ [⟨4, "d1", [], 0⟩]
    (by decide) (by decide) (by decide)

/-- Slash predicate for strspn(path + j, "/") and the trailing-slash
stripping loop of help_path_transpose. -/
def isSlash (c : Char) : Bool := c == '/'

/-- Strip the maximal run of trailing slashes from a path. -/
def stripTrailSlashes (l : List Char) : List Char :=
  (l.reverse.dropWhile isSlash).reverse

/-- The sanitising loop of help_path_transpose (help.c lines 613-616):
starting from the full length, positions are dropped while the last kept
character is '/' and the length stays above i (the length of the freshly
prepended prefix). -/
def boundedStrip (l : List Char) (i : Nat) : List Char :=
  l.take i ++ stripTrailSlashes (l.drop i)

/-- The scheme token "help" (help.c line 582). -/
def schemeChars : List Char := ['h', 'e', 'l', 'p']

/-- The characters of "help://", the prefix given to the logical form
(help.c line 612); its length is the lower bound strlen(scheme) + 3 used
when stripping the url form. -/
def urlPrefixChars : List Char := ['h', 'e', 'l', 'p', ':', '/', '/']

/-- help_path_transpose (help.c lines 573-619) with C_HelpDocDir explicit
and validate = false (the realpath existence check is I/O; every use in
this development, as in help_doclist_parse, passes false).  A path whose
first four characters are the scheme token must continue with ':' or end
there; a path starting with the configured root must continue with '/' or
end there; otherwise the result is NULL.  The remainder's leading slashes
are skipped (strspn), the opposite prefix is prepended, and trailing
slashes are stripped down to the length of that prefix. -/
def help_path_transpose (docdir path : List Char) : Option (List Char) :=
  if path = [] then none
  else if path.take 4 = schemeChars then
    if path.length = 4 then
      some (boundedStrip (docdir ++ '/' :: ((path.drop 4).dropWhile isSlash)) docdir.length)
    else if path.get? 4 = some ':' then
      some (boundedStrip (docdir ++ '/' :: ((path.drop 5).dropWhile isSlash)) docdir.length)
    else none
  else if path.take docdir.length = docdir then
    if path.length = docdir.length ∨ path.get? docdir.length = some '/' then
      some (boundedStrip (urlPrefixChars ++ ((path.drop docdir.length).dropWhile isSlash))
        urlPrefixChars.length)
    else none
  else none

/-- help_path_transpose applied twice, the round trip of claim C9. -/
def help_transpose_twice (docdir p : List Char) : Option (List Char) :=
  (help_path_transpose docdir p).bind (help_path_transpose docdir)

/-- C9 counterexample: for the well-formed filesystem path "/help//a" under
root "/help", the round trip yields "/help/a": the strspn skip collapses
the run of slashes after the root, so the result differs from the path
with (only) trailing slashes stripped, which would be "/help//a" itself. -/
theorem help_c9_counterexample :
    help_transpose_twice "/help".toList "/help//a".toList = some "/help/a".toList
    ∧ stripTrailSlashes "/help//a".toList = "/help//a".toList
    ∧ "/help/a".toList ≠ "/help//a".toList := by
  decide

theorem dropWhile_fix (p : Char → Bool) (l : List Char) :
    (l.dropWhile p).dropWhile p = l.dropWhile p := by
  induction l with
  | nil => rfl
  | cons c t ih =>
    rw [List.dropWhile_cons]
    by_cases h : p c = true
    · rw [if_pos h]; exact ih
    · rw [if_neg h, List.dropWhile_cons, if_neg h]

theorem stripTrail_cons_ne (c : Char) (l : List Char) (hc : isSlash c = false) :
    stripTrailSlashes (c :: l) = c :: stripTrailSlashes l := by
  rw [stripTrailSlashes, stripTrailSlashes, List.reverse_cons, List.dropWhile_append]
  split
  · rename_i h
    simp only [List.isEmpty_iff] at h
    rw [h, List.dropWhile_cons, if_neg (by simp [hc])]
    rfl
  · rw [List.reverse_append]
    rfl

theorem stripTrail_append_last (a b : List Char) (ha : a.getLast? ≠ some '/') :
    stripTrailSlashes (a ++ b) = a ++ stripTrailSlashes b := by
  rw [stripTrailSlashes, stripTrailSlashes, List.reverse_append, List.dropWhile_append]
  have hfix : a.reverse.dropWhile isSlash = a.reverse := by
    cases hr : a.reverse with
    | nil => rfl
    | cons c t =>
      have hc : c ≠ '/' := by
        intro hc
        apply ha
        rw [← List.head?_reverse, hr, hc]
        rfl
      rw [List.dropWhile_cons, if_neg (by simp [isSlash, hc])]
  split
  · rename_i h
    simp only [List.isEmpty_iff] at h
    rw [h, hfix, List.reverse_reverse]
    simp
  · rw [List.reverse_append, List.reverse_reverse]

theorem stripTrail_slash_cons (l : List Char) :
    stripTrailSlashes ('/' :: l)
      = if stripTrailSlashes l = [] then [] else '/' :: stripTrailSlashes l := by
  rw [stripTrailSlashes, stripTrailSlashes, List.reverse_cons, List.dropWhile_append]
  split
  · rename_i h
    simp only [List.isEmpty_iff] at h
    rw [if_pos (by rw [h]; rfl)]
    rfl
  · rename_i h
    simp only [List.isEmpty_iff] at h
    rw [if_neg (by simpa using h), List.reverse_append]
    rfl

theorem stripTrail_idem (l : List Char) :
    stripTrailSlashes (stripTrailSlashes l) = stripTrailSlashes l := by
  rw [stripTrailSlashes, stripTrailSlashes, List.reverse_reverse, dropWhile_fix]

theorem stripTrail_head_ne (l : List Char) (h : l.head? ≠ some '/') :
    (stripTrailSlashes l).head? ≠ some '/' := by
  cases l with
  | nil => simp [stripTrailSlashes]
  | cons c t =>
    have hc : c ≠ '/' := by
      intro hc
      exact h (by rw [hc]; rfl)
    rw [stripTrail_cons_ne c t (by simp [isSlash, hc])]
    simp [hc]

theorem dropWhile_slash_of_head (l : List Char) (h : l.head? ≠ some '/') :
    l.dropWhile isSlash = l := by
  cases l with
  | nil => rfl
  | cons c t =>
    have hc : c ≠ '/' := by
      intro hc
      exact h (by rw [hc]; rfl)
    rw [List.dropWhile_cons, if_neg (by simp [isSlash, hc])]

theorem boundedStrip_append (a b : List Char) :
    boundedStrip (a ++ b) a.length = a ++ stripTrailSlashes b := by
  rw [boundedStrip, List.take_left, List.drop_left]

theorem head?_append_left (a b : List Char) (h : a ≠ []) :
    (a ++ b).head? = a.head? := by
  cases a with
  | nil => exact absurd rfl h
  | cons c t => rfl

theorem take_eq_scheme_head (l : List Char) (h : l.take 4 = schemeChars) :
    l.head? = some 'h' := by
  cases l with
  | nil => simp [schemeChars] at h
  | cons c t =>
    have h2 : c :: t.take 3 = schemeChars := h
    simp only [schemeChars, List.cons.injEq] at h2
    simp [h2.1]

/-- C9 (amended): for a filesystem path of the canonical form
root ++ "/" ++ rest, with the root absolute and free of trailing slashes
(as help_mbox_open's realpath guarantees) and rest not beginning with a
further '/', transposing to the logical help:// form and back yields
exactly the path with its run of trailing slashes stripped.  When extra
slashes follow the root separator, the strspn skip (help.c line 610)
additionally collapses them, so the round trip is the identity up to
trailing-slash stripping only in this single-separator form; see the
counterexample. -/
theorem help_c9_roundtrip (docdir rest : List Char)
    (h1 : docdir.head? = some '/')
    (h2 : docdir.getLast? ≠ some '/')
    (h3 : rest.head? ≠ some '/') :
    help_transpose_twice docdir (docdir ++ '/' :: rest)
      = some (stripTrailSlashes (docdir ++ '/' :: rest)) := by
  have hdne : docdir ≠ [] := by
    intro hn
    rw [hn] at h1
    exact Option.noConfusion h1
  have hpne : ¬(docdir ++ '/' :: rest = []) := by
    intro hn
    exact hdne (List.append_eq_nil.mp hn).1
  have hph : (docdir ++ '/' :: rest).head? = some '/' := by
    rw [head?_append_left _ _ hdne, h1]
  have hscheme : ¬((docdir ++ '/' :: rest).take 4 = schemeChars) := by
    intro hcontra
    have hh := take_eq_scheme_head _ hcontra
    rw [hph] at hh
    exact absurd hh (by simp)
  have hget : (docdir ++ '/' :: rest).get? docdir.length = some '/' := by
    rw [List.get?_append_right (Nat.le_refl _), Nat.sub_self]
    rfl
  have hdrop : (docdir ++ '/' :: rest).drop docdir.length = '/' :: rest :=
    List.drop_left _ _
  have hsl : isSlash '/' = true := rfl
  have hrest : ('/' :: rest).dropWhile isSlash = rest := by
    rw [List.dropWhile_cons, if_pos hsl]
    exact dropWhile_slash_of_head rest h3
  have e1 : help_path_transpose docdir (docdir ++ '/' :: rest)
      = some (urlPrefixChars ++ stripTrailSlashes rest) := by
    rw [help_path_transpose, if_neg hpne, if_neg hscheme,
      if_pos (List.take_left _ _), if_pos (Or.inr hget), hdrop, hrest,
      boundedStrip_append]
  have hs3 : (stripTrailSlashes rest).head? ≠ some '/' := stripTrail_head_ne rest h3
  have e2 : help_path_transpose docdir (urlPrefixChars ++ stripTrailSlashes rest)
      = some (docdir ++ stripTrailSlashes ('/' :: stripTrailSlashes rest)) := by
    have hu : urlPrefixChars ++ stripTrailSlashes rest
        = 'h' :: 'e' :: 'l' :: 'p' :: ':' :: '/' :: '/' :: stripTrailSlashes rest := rfl
    have hc1 : List.take 4 ('h' :: 'e' :: 'l' :: 'p' :: ':' :: '/' :: '/' :: stripTrailSlashes rest)
        = schemeChars := rfl
    have hc2 : ('h' :: 'e' :: 'l' :: 'p' :: ':' :: '/' :: '/' :: stripTrailSlashes rest).get? 4
        = some ':' := rfl
    rw [hu, help_path_transpose, if_neg (by simp), if_pos hc1,
      if_neg (by simp only [List.length_cons]; omega), if_pos hc2]
    rw [show ('h' :: 'e' :: 'l' :: 'p' :: ':' :: '/' :: '/' :: stripTrailSlashes rest).drop 5
        = '/' :: '/' :: stripTrailSlashes rest from rfl]
    rw [List.dropWhile_cons, if_pos hsl, List.dropWhile_cons, if_pos hsl,
      dropWhile_slash_of_head _ hs3, boundedStrip_append]
  rw [help_transpose_twice, e1, Option.some_bind, e2,
    stripTrail_append_last docdir ('/' :: rest) h2,
    stripTrail_slash_cons, stripTrail_slash_cons, stripTrail_idem]

/-- C9 witness: the round trip at the concrete path "/help/a//" yields
"/help/a". -/
theorem help_c9_witness :
    help_transpose_twice "/help".toList ("/help".toList ++ '/' :: "a//".toList)
      = some (stripTrailSlashes ("/help".toList ++ '/' :: "a//".toList)) :=
  help_c9_roundtrip "/help".toList "a//".toList (by decide) (by decide) (by decide)

/-- Modelled from the spec: the fingerprint is an MD5 checksum over the
configured root path string (help_checksum_md5, help.c lines 278-284, via
mutt_md5, which lives outside src/).  Only equality of fingerprints of
path strings matters to the caching logic, so the hash is modelled as the
identity on strings. -/
def help_checksum_md5 (s : String) : String := s

/-- The filesystem as a DocList rebuild sees it: either the configured root
directory cannot be opened (opendir failure, help.c lines 650-659), or it
can, and the walk delivers the per-directory document batches in traversal
order (the root directory's own batch first, then one batch per descendant
directory), each batch already in its sorted order. -/
inductive HelpFs where
  | unopenable : HelpFs
  | openable : List (List HelpDoc) → HelpFs
deriving DecidableEq, Repr

/-- One help_read_dir call on one directory's batch: an empty batch is
skipped (help.c lines 914-916), otherwise the batch is linked and
appended. -/
def help_read_dir_batch (s : HelpState) (batch : List HelpDoc) : HelpState :=
  match batch with
  | [] => s
  | t :: r => help_read_dir_linked s t r

/-- The process-wide cache state: the optional DocList, the UpLink cursor
and the DocDirID fingerprint (help.c lines 60-62; "" is the cleared id
produced by help_doclist_free). -/
structure CacheState where
  docList : Option (List HelpDoc)
  upLink : Nat
  docDirID : String
deriving DecidableEq, Repr

/-- help_doclist_init (help.c lines 978-989) over the filesystem model.
HELP_CACHE_DOCLIST is 1 in this source, so when a DocList exists and
help_docdir_changed is false (the fingerprint of the configured root path
equals the stored DocDirID), the call returns 0 at once without consulting
the filesystem.  Otherwise the old list is freed (clearing id and cursor),
a fresh empty list is installed, help_read_dir runs on the root itself (a
no-op when the root cannot be opened: help_dir_scan merely reports -1 and
help_read_dir swallows it), help_docdir_id records the fingerprint (the
fresh DocList is non-NULL, help.c line 293), and the result of the final
recursive help_dir_scan -- -1 exactly when the root cannot be opened -- is
returned after every descendant directory's batch has been processed. -/
def help_doclist_init (fs : HelpFs) (docdir : String) (s : CacheState) : Int × CacheState :=
  if s.docList.isSome ∧ s.docDirID = help_checksum_md5 docdir then
    (0, s)
  else
    match fs with
    | .unopenable =>
      (-1, { docList := some [], upLink := 0, docDirID := help_checksum_md5 docdir })
    | .openable batches =>
      let w := batches.foldl help_read_dir_batch ⟨[], 0⟩
      (0, { docList := some w.docList, upLink := w.upLink,
            docDirID := help_checksum_md5 docdir })

/-- C10: when the rebuild path is taken (no cached list, or the root path's
fingerprint differs) and the configured root cannot be opened,
help_doclist_init returns -1 yet installs a fresh empty DocList and records
the root path's fingerprint; consequently any second call with the root
path unchanged is a cache hit on the empty index: it returns 0 and the
unchanged state immediately, whatever the filesystem now looks like -- no
walk is retried. -/
theorem help_c10_cache (docdir : String) (s : CacheState)
    (h : s.docList = none ∨ s.docDirID ≠ help_checksum_md5 docdir) :
    help_doclist_init .unopenable docdir s
      = (-1, ⟨some [], 0, help_checksum_md5 docdir⟩)
    ∧ ∀ fs : HelpFs,
      help_doclist_init fs docdir ⟨some [], 0, help_checksum_md5 docdir⟩
        = (0, ⟨some [], 0, help_checksum_md5 docdir⟩) := by
  constructor
  · have hcond : ¬(s.docList.isSome = true ∧ s.docDirID = help_checksum_md5 docdir) := by
      rcases h with h | h
      · intro hc
        rw [h] at hc
        simp at hc
      · exact fun hc => h hc.2
    rw [help_doclist_init.eq_def, if_neg hcond]
  · intro fs
    rw [help_doclist_init.eq_def, if_pos ⟨rfl, rfl⟩]

/-- C10 witness: a failed rebuild at an unopenable root followed by a
second call with the root unchanged and the directory now openable and
non-empty: the second call still returns 0 with the empty cached index. -/
theorem help_c10_witness :
    help_doclist_init .unopenable "/help" ⟨none, 0, ""⟩
      = (-1, ⟨some [], 0, help_checksum_md5 "/help"⟩)
    ∧ help_doclist_init (.openable [[⟨4, "c", [], 0⟩]]) "/help"
        ⟨some [], 0, help_checksum_md5 "/help"⟩
      = (0, ⟨some [], 0, help_checksum_md5 "/help"⟩) :=
  ⟨(help_c10_cache "/help" ⟨none, 0, ""⟩ (Or.inl rfl)).1,
   (help_c10_cache "/help" ⟨none, 0, ""⟩ (Or.inl rfl)).2 (.openable [[⟨4, "c", [], 0⟩]])⟩
